import Mathlib

/-!
Verification of the identifier-extraction and loop-playback logic of the
YouTubeOnLoop pages (`src/app/page.tsx`, `src/app/watch/page.tsx`,
`src/app/twitch/page.tsx`).

Strings are modelled as Lean `String`/`List Char`.  JavaScript numbers that
hold whole seconds or player times are modelled as `Int` (or `ℚ` where the
source applies `Math.floor` to possibly fractional values); `parseInt`'s NaN
outcome is modelled as `Option.none`.
-/

/-- ECMAScript white space and line terminators, as trimmed by `String.prototype.trim`
and skipped by `parseInt` (space, tab, LF, VT, FF, CR, NBSP, LS, PS, BOM). -/
def isJsWhitespace (c : Char) : Bool :=
  decide (c = ' ' ∨ c = '\t' ∨ c = '\n' ∨ c = '\x0b' ∨ c = '\x0c' ∨ c = '\r' ∨
    c = '\xa0' ∨ c = '\u2028' ∨ c = '\u2029' ∨ c = '\ufeff')

/-- JavaScript `input.trim()`. -/
def jsTrim (s : String) : String :=
  String.mk (((s.data.dropWhile isJsWhitespace).reverse.dropWhile isJsWhitespace).reverse)

/-- Value of a character as a digit in the given base (ECMAScript digit letters
are case-insensitive), `none` when it is not a digit of that base. -/
def digitVal (base : Nat) (c : Char) : Option Nat :=
  let v : Nat :=
    if '0' ≤ c ∧ c ≤ '9' then c.toNat - ('0').toNat
    else if 'a' ≤ c ∧ c ≤ 'z' then c.toNat - ('a').toNat + 10
    else if 'A' ≤ c ∧ c ≤ 'Z' then c.toNat - ('A').toNat + 10
    else 99
  if v < base then some v else none

/-- Longest leading run of base-`base` digits, as digit values. -/
def digitsLoop (base : Nat) : List Char → List Nat
  | [] => []
  | c :: cs =>
    match digitVal base c with
    | some v => v :: digitsLoop base cs
    | none => []

/-- JavaScript `parseInt(s)` with no radix argument: skip white space, read an
optional sign, switch to base 16 after a `0x`/`0X` prefix, then read the longest
digit run.  `none` models the NaN result when no digit is found. -/
def jsParseInt (s : String) : Option Int :=
  let cs := s.data.dropWhile isJsWhitespace
  let signed : Int × List Char :=
    match cs with
    | '-' :: r => (-1, r)
    | '+' :: r => (1, r)
    | r => (1, r)
  let based : Nat × List Char :=
    match signed.2 with
    | '0' :: 'x' :: r => (16, r)
    | '0' :: 'X' :: r => (16, r)
    | r => (10, r)
  match digitsLoop based.1 based.2 with
  | [] => none
  | ds => some (signed.1 * ds.foldl (fun a d => a * (based.1 : Int) + (d : Int)) 0)

/-- Characters excluded from the capture group `[^&\n?#]+` of the first
YouTube pattern in `extractVideoId` (src/app/page.tsx:72). -/
def stopChar (c : Char) : Bool :=
  decide (c = '&' ∨ c = '\n' ∨ c = '?' ∨ c = '#')

/-- The character class `[a-zA-Z0-9_-]` of the bare-video-id pattern
(src/app/page.tsx:73). -/
def isVideoIdChar (c : Char) : Bool :=
  decide (('a' ≤ c ∧ c ≤ 'z') ∨ ('A' ≤ c ∧ c ≤ 'Z') ∨ ('0' ≤ c ∧ c ≤ '9') ∨ c = '_' ∨ c = '-')

/-- The regex word class `\w` = `[A-Za-z0-9_]` of the Twitch pattern
(src/app/twitch/page.tsx:24). -/
def isWordChar (c : Char) : Bool :=
  decide (('a' ≤ c ∧ c ≤ 'z') ∨ ('A' ≤ c ∧ c ≤ 'Z') ∨ ('0' ≤ c ∧ c ≤ '9') ∨ c = '_')

/-- Greedy capture of characters satisfying `p` (a regex `X+`/`X*` capture with
nothing following it never backtracks, so it is a plain take-while). -/
def captureWhile (p : Char → Bool) : List Char → List Char
  | [] => []
  | c :: cs => if p c then c :: captureWhile p cs else []

/-- Consume the literal `p` at the head of the text, returning the remainder. -/
def dropLit : List Char → List Char → Option (List Char)
  | [], cs => some cs
  | _ :: _, [] => none
  | p :: ps, c :: cs => if p = c then dropLit ps cs else none

/-- Case-insensitive variant of `dropLit` for an all-lower-case literal,
mirroring the `/i` flag. -/
def dropLitCI : List Char → List Char → Option (List Char)
  | [], cs => some cs
  | _ :: _, [] => none
  | p :: ps, c :: cs => if p = c.toLower then dropLitCI ps cs else none

/-- First alternative of the YouTube URL pattern: `youtube.com/watch?v=`. -/
def watchPat : List Char := ("youtube.com/watch?v=").data

/-- Second alternative of the YouTube URL pattern: `youtu.be/`. -/
def shortPat : List Char := ("youtu.be/").data

/-- Third alternative of the YouTube URL pattern: `youtube.com/embed/`. -/
def embedPat : List Char := ("youtube.com/embed/").data

/-- The Twitch URL literal `twitch.tv/`. -/
def twitchPat : List Char := ("twitch.tv/").data

/-- Try one alternative of `(?:youtube\.com\/watch\?v=|youtu\.be\/|youtube\.com\/embed\/)([^&\n?#]+)`
at the current position: the literal must match and the capture must be non-empty. -/
def tryPat (p : List Char) (cs : List Char) : Option (List Char) :=
  match dropLit p cs with
  | none => none
  | some rest =>
    match captureWhile (fun c => !stopChar c) rest with
    | [] => none
    | cap => some cap

/-- Try the three alternatives of the YouTube URL pattern, in source order, at
the current position. -/
def matchAt (cs : List Char) : Option (List Char) :=
  match tryPat watchPat cs with
  | some cap => some cap
  | none =>
    match tryPat shortPat cs with
    | some cap => some cap
    | none => tryPat embedPat cs

/-- The unanchored search `url.match(pattern)` for the first YouTube pattern:
scan positions left to right, at each position try the alternatives in order. -/
def findUrlMatch : List Char → Option (List Char)
  | [] => none
  | c :: cs =>
    match matchAt (c :: cs) with
    | some cap => some cap
    | none => findUrlMatch cs

/-- `extractVideoId` (src/app/page.tsx:70-81): try the URL pattern, then the
anchored bare-id pattern `^([a-zA-Z0-9_-]{11})$`, returning the first capture,
`none` when neither matches. -/
def extractVideoId (url : String) : Option String :=
  match findUrlMatch url.data with
  | some cap => some (String.mk cap)
  | none =>
    if url.data.length = 11 ∧ ∀ c ∈ url.data, isVideoIdChar c then some url else none

/-- The unanchored case-insensitive search for `/twitch\.tv\/(\w+)/i` at one
position: the literal must match and the `\w+` capture must be non-empty. -/
def twitchMatchAt (cs : List Char) : Option (List Char) :=
  match dropLitCI twitchPat cs with
  | none => none
  | some rest =>
    match captureWhile isWordChar rest with
    | [] => none
    | cap => some cap

/-- Left-to-right scan for `/twitch\.tv\/(\w+)/i`. -/
def twitchFind : List Char → Option (List Char)
  | [] => none
  | c :: cs =>
    match twitchMatchAt (c :: cs) with
    | some cap => some cap
    | none => twitchFind cs

/-- `extractChannelName` (src/app/twitch/page.tsx:22-28): return the `\w+`
capture after a case-insensitive `twitch.tv/`, else the trimmed input. -/
def extractChannelName (input : String) : String :=
  match twitchFind input.data with
  | some cap => String.mk cap
  | none => jsTrim input

/-- Commands a handler issues to the embedded YouTube player (the `YTPlayer`
interface of src/app/page.tsx:24-35, plus creation).  A `seekTo` target of
`none` models the NaN that `parseInt` can produce; `create`'s end bound is
`none` for `undefined` and `some none` for NaN. -/
inductive Cmd where
  | playVideo
  | pauseVideo
  | seekTo (seconds : Option Int) (allowSeekAhead : Bool)
  | setPlaybackRate (rate : ℚ)
  | destroy
  | create (videoId : String) (start : Option Int) (stop : Option (Option Int))
  deriving DecidableEq

/-- The React state of the home page component (src/app/page.tsx:86-95).
`playerRef`/`containerRef`/`apiReady` are passed to the handlers that read them. -/
structure HomeState where
  url : String
  videoId : Option String
  loopCount : Nat
  isPlaying : Bool
  playbackSpeed : ℚ
  startTime : String
  endTime : String
  currentTime : Int
  duration : Int
  deriving DecidableEq

/-- The recurring `startTime ? parseInt(startTime) : 0` of the source: the
empty string is the only falsy string. -/
def startSeconds (startTime : String) : Option Int :=
  if startTime = ("") then some 0 else jsParseInt startTime

/-- The recurring `endTime ? parseInt(endTime) : undefined` of the source. -/
def endSeconds (endTime : String) : Option (Option Int) :=
  if endTime = ("") then none else some (jsParseInt endTime)

/-- The allowed playback rates (src/app/page.tsx:83). -/
def PLAYBACK_SPEEDS : List ℚ := [0.25, 0.5, 0.75, 1, 1.25, 1.5, 1.75, 2]

/-- `onPlayerStateChange` (src/app/page.tsx:135-154): on ENDED (0) increment
the loop count, seek to the parsed start time and play again; on PLAYING (1)
and PAUSED (2) mirror the playing flag. -/
def onPlayerStateChange (data : Int) (s : HomeState) : HomeState × List Cmd :=
  match data with
  | 0 => ({ s with loopCount := s.loopCount + 1 },
      [Cmd.seekTo (startSeconds s.startTime) true, Cmd.playVideo])
  | 1 => ({ s with isPlaying := true }, [])
  | 2 => ({ s with isPlaying := false }, [])
  | _ => (s, [])

/-- `onPlayerReady` (src/app/page.tsx:156-161): when the player handle exists,
mirror its duration and push the current playback rate. -/
def onPlayerReady (hasPlayer : Bool) (d : Int) (s : HomeState) : HomeState × List Cmd :=
  if hasPlayer then ({ s with duration := d }, [Cmd.setPlaybackRate s.playbackSpeed])
  else (s, [])

/-- The player-creation effect (src/app/page.tsx:164-203): bail out unless the
IFrame API is ready and a video id is set (the container div is rendered with
the id), destroy any previous handle, then create the player with the parsed
trim bounds. -/
def createPlayerEffect (apiReady hasPlayer : Bool) (s : HomeState) : List Cmd :=
  match s.videoId with
  | none => []
  | some vid =>
    if apiReady then
      (if hasPlayer then [Cmd.destroy] else []) ++
        [Cmd.create vid (startSeconds s.startTime) (endSeconds s.endTime)]
    else []

/-- `handleSubmit` (src/app/page.tsx:205-220): extract an id from the url
field; on failure do nothing; on the already-loaded id reset the loop count,
seek to the start bound and play; on a different id store it and reset the
loop count and playing flag. -/
def handleSubmit (s : HomeState) : HomeState × List Cmd :=
  match extractVideoId s.url with
  | none => (s, [])
  | some id =>
    if some id = s.videoId then
      ({ s with loopCount := 0 },
        [Cmd.seekTo (startSeconds s.startTime) true, Cmd.playVideo])
    else
      ({ s with videoId := some id, loopCount := 0, isPlaying := true }, [])

/-- A whole submit interaction: `handleSubmit` followed by the player-creation
effect, which React re-runs only when one of its dependencies changed —
`handleSubmit` can only change `videoId` among them. -/
def submitStep (apiReady hasPlayer : Bool) (s : HomeState) : HomeState × List Cmd :=
  let r := handleSubmit s
  (r.1, r.2 ++ (if r.1.videoId = s.videoId then [] else createPlayerEffect apiReady hasPlayer r.1))

/-- `handleReset` (src/app/page.tsx:222-235): destroy the player handle if any
and reset every state field it touches — note `playbackSpeed` is not among
them. -/
def handleReset (hasPlayer : Bool) (s : HomeState) : HomeState × List Cmd :=
  ({ url := (""), videoId := none, loopCount := 0, isPlaying := false,
     playbackSpeed := s.playbackSpeed, startTime := (""), endTime := (""),
     currentTime := 0, duration := 0 },
   if hasPlayer then [Cmd.destroy] else [])

/-- `togglePlay` (src/app/page.tsx:238-244). -/
def togglePlay (hasPlayer : Bool) (s : HomeState) : HomeState × List Cmd :=
  (s, if s.isPlaying then (if hasPlayer then [Cmd.pauseVideo] else [])
      else (if hasPlayer then [Cmd.playVideo] else []))

/-- `skipBack` (src/app/page.tsx:246-249): read the current time (`|| 0` when
the handle is absent) and seek to `Math.max(0, current - 10)`. -/
def skipBack (hasPlayer : Bool) (t : Int) (s : HomeState) : HomeState × List Cmd :=
  let current : Int := if hasPlayer then t else 0
  (s, if hasPlayer then [Cmd.seekTo (some (max 0 (current - 10))) true] else [])

/-- `skipForward` (src/app/page.tsx:251-254): seek to `current + 10`, with no
upper clamp. -/
def skipForward (hasPlayer : Bool) (t : Int) (s : HomeState) : HomeState × List Cmd :=
  let current : Int := if hasPlayer then t else 0
  (s, if hasPlayer then [Cmd.seekTo (some (current + 10)) true] else [])

/-- `resetLoopCount` (src/app/page.tsx:256-258). -/
def resetLoopCount (s : HomeState) : HomeState × List Cmd :=
  ({ s with loopCount := 0 }, [])

/-- The speed `Select`'s `onValueChange` (src/app/page.tsx:444-448): store the
parsed rate and push it to the live player. -/
def setSpeed (hasPlayer : Bool) (v : ℚ) (s : HomeState) : HomeState × List Cmd :=
  ({ s with playbackSpeed := v }, if hasPlayer then [Cmd.setPlaybackRate v] else [])

/-- One tick of the 500 ms time-mirroring interval (src/app/page.tsx:118-132):
mirror the player's current time and duration. -/
def timeTick (ct d : Int) (s : HomeState) : HomeState × List Cmd :=
  ({ s with currentTime := ct, duration := d }, [])

/-- Every externally triggered transition of the home page: player lifecycle
notifications, form events and button handlers, with the player-handle and
API-readiness context each handler reads. -/
inductive Event where
  | notify (data : Int)
  | ready (hasPlayer : Bool) (d : Int)
  | submit (apiReady hasPlayer : Bool)
  | clear (hasPlayer : Bool)
  | toggle (hasPlayer : Bool)
  | back (hasPlayer : Bool) (t : Int)
  | forward (hasPlayer : Bool) (t : Int)
  | resetLoop
  | speed (hasPlayer : Bool) (v : ℚ)
  | tick (ct d : Int)

/-- Dispatch an event to its handler. -/
def step (e : Event) (s : HomeState) : HomeState × List Cmd :=
  match e with
  | .notify data => onPlayerStateChange data s
  | .ready p d => onPlayerReady p d s
  | .submit a p => submitStep a p s
  | .clear p => handleReset p s
  | .toggle p => togglePlay p s
  | .back p t => skipBack p t s
  | .forward p t => skipForward p t s
  | .resetLoop => resetLoopCount s
  | .speed p v => setSpeed p v s
  | .tick ct d => timeTick ct d s

/-- Events whose handlers explicitly reset the loop count: a submit (reload or
cheap restart), the Clear button, and the loop-counter badge click. -/
def resetsLoop : Event → Bool
  | .submit _ _ => true
  | .clear _ => true
  | .resetLoop => true
  | _ => false

/-- The command pair emitted for every ENDED notification. -/
def loopCmds (startTime : String) : List Cmd :=
  [Cmd.seekTo (startSeconds startTime) true, Cmd.playVideo]

/-- Feed a list of lifecycle notifications (`event.data` values) to
`onPlayerStateChange`, collecting the issued commands. -/
def runNotify : HomeState → List Int → HomeState × List Cmd
  | s, [] => (s, [])
  | s, d :: ds =>
    let r := onPlayerStateChange d s
    let rest := runNotify r.1 ds
    (rest.1, r.2 ++ rest.2)

namespace Watch

/-- The React state of the watch page component (src/app/watch/page.tsx:79-88);
the video id comes from the query string, not from state. -/
structure WatchState where
  loopCount : Nat
  isPlaying : Bool
  playbackSpeed : ℚ
  startTime : String
  endTime : String
  currentTime : Int
  duration : Int
  deriving DecidableEq

/-- `onPlayerStateChange` (src/app/watch/page.tsx:124-137), character for
character the home page handler. -/
def onPlayerStateChange (data : Int) (s : WatchState) : WatchState × List Cmd :=
  match data with
  | 0 => ({ s with loopCount := s.loopCount + 1 },
      [Cmd.seekTo (startSeconds s.startTime) true, Cmd.playVideo])
  | 1 => ({ s with isPlaying := true }, [])
  | 2 => ({ s with isPlaying := false }, [])
  | _ => (s, [])

/-- `skipBack` (src/app/watch/page.tsx:190-193). -/
def skipBack (hasPlayer : Bool) (t : Int) (s : WatchState) : WatchState × List Cmd :=
  let current : Int := if hasPlayer then t else 0
  (s, if hasPlayer then [Cmd.seekTo (some (max 0 (current - 10))) true] else [])

/-- `skipForward` (src/app/watch/page.tsx:195-198). -/
def skipForward (hasPlayer : Bool) (t : Int) (s : WatchState) : WatchState × List Cmd :=
  let current : Int := if hasPlayer then t else 0
  (s, if hasPlayer then [Cmd.seekTo (some (current + 10)) true] else [])

/-- Notification runner for the watch page, as `runNotify`. -/
def runNotify : WatchState → List Int → WatchState × List Cmd
  | s, [] => (s, [])
  | s, d :: ds =>
    let r := onPlayerStateChange d s
    let rest := runNotify r.1 ds
    (rest.1, r.2 ++ rest.2)

end Watch

/-- JavaScript's truncating conversion hidden in the float `%` operator. -/
def jsTrunc (q : ℚ) : Int := if q < 0 then -⌊-q⌋ else ⌊q⌋

/-- JavaScript's float remainder `a % b`: `a - b * trunc(a / b)`. -/
def jsMod (a b : ℚ) : ℚ := a - b * (jsTrunc (a / b) : ℚ)

/-- JavaScript `s.padStart(n, c)`. -/
def padStart (s : String) (n : Nat) (c : Char) : String :=
  String.mk (List.replicate (n - s.length) c) ++ s

/-- `formatTime` (src/app/page.tsx:260-264): minutes unpadded, seconds padded
to two digits.  Player times are floats, modelled as `ℚ`; `Math.floor` is `⌊⌋`. -/
def formatTime (seconds : ℚ) : String :=
  let mins : Int := ⌊seconds / 60⌋
  let secs : Int := ⌊jsMod seconds 60⌋
  toString mins ++ (":") ++ padStart (toString secs) 2 ('0')

namespace Watch

/-- `formatTime` (src/app/watch/page.tsx:204-208), character for character the
home page helper. -/
def formatTime (seconds : ℚ) : String :=
  let mins : Int := ⌊seconds / 60⌋
  let secs : Int := ⌊jsMod seconds 60⌋
  toString mins ++ (":") ++ padStart (toString secs) 2 ('0')

end Watch

/-- C10's expected rendering, stated from the claim's words: the floor of
`s / 60` unpadded, a colon, and the floor of the mathematical `s mod 60`
zero-padded to two digits. -/
def formatTimeSpec (s : ℚ) : String :=
  let m : Int := ⌊s / 60⌋
  let r : Int := ⌊s - 60 * (⌊s / 60⌋ : ℚ)⌋
  toString m ++ (":") ++ (if r < 10 then ("0") ++ toString r else toString r)

theorem mem_captureWhile {p : Char → Bool} {c : Char} :
    ∀ {cs : List Char}, c ∈ captureWhile p cs → p c = true
  | [], h => by simp [captureWhile] at h
  | a :: as, h => by
    rw [captureWhile] at h
    split at h
    next ha =>
      rcases List.mem_cons.1 h with rfl | h2
      · exact ha
      · exact mem_captureWhile h2
    next => simp at h

theorem captureWhile_eq_self {p : Char → Bool} :
    ∀ {cs : List Char}, (∀ c ∈ cs, p c = true) → captureWhile p cs = cs
  | [], _ => rfl
  | a :: as, h => by
    rw [captureWhile, if_pos (h a (List.mem_cons_self a as))]
    rw [captureWhile_eq_self fun c hc => h c (List.mem_cons_of_mem a hc)]

theorem dropLit_sound : ∀ {p cs rest : List Char}, dropLit p cs = some rest → cs = p ++ rest
  | [], cs, rest, h => by
    rw [dropLit, Option.some_inj] at h
    simp [h]
  | _ :: _, [], _, h => by simp [dropLit] at h
  | a :: ps, c :: cs, rest, h => by
    rw [dropLit] at h
    split at h
    next heq => rw [List.cons_append, ← heq, ← dropLit_sound h]
    next => simp at h

theorem tryPat_sound {p cs cap : List Char} (h : tryPat p cs = some cap) :
    cap ≠ [] ∧ ∀ c ∈ cap, stopChar c = false := by
  unfold tryPat at h
  split at h
  · simp at h
  next rest hrest =>
    split at h
    · simp at h
    next cs' hcap =>
      rw [Option.some_inj] at h
      subst h
      refine ⟨hcap, fun c hc => ?_⟩
      simpa using mem_captureWhile hc

theorem tryPat_mem {p cs cap : List Char} (h : tryPat p cs = some cap) {c : Char}
    (hc : c ∈ p) : c ∈ cs := by
  unfold tryPat at h
  split at h
  · simp at h
  next rest hrest =>
    rw [dropLit_sound hrest]
    exact List.mem_append_left _ hc

theorem matchAt_sound {cs cap : List Char} (h : matchAt cs = some cap) :
    cap ≠ [] ∧ ∀ c ∈ cap, stopChar c = false := by
  unfold matchAt at h
  split at h
  next h1 => exact tryPat_sound (h ▸ h1)
  next =>
    split at h
    next h2 => exact tryPat_sound (h ▸ h2)
    next => exact tryPat_sound h

theorem matchAt_dot {cs cap : List Char} (h : matchAt cs = some cap) : ('.') ∈ cs := by
  unfold matchAt at h
  split at h
  next h1 => exact tryPat_mem h1 (by decide)
  next =>
    split at h
    next h2 => exact tryPat_mem h2 (by decide)
    next => exact tryPat_mem h (by decide)

theorem findUrlMatch_sound :
    ∀ {cs cap : List Char}, findUrlMatch cs = some cap →
      cap ≠ [] ∧ ∀ c ∈ cap, stopChar c = false
  | [], _, h => by simp [findUrlMatch] at h
  | c :: cs, cap, h => by
    rw [findUrlMatch] at h
    split at h
    next hm => exact matchAt_sound (h ▸ hm)
    next => exact findUrlMatch_sound h

theorem findUrlMatch_eq_none :
    ∀ {cs : List Char}, ('.') ∉ cs → findUrlMatch cs = none
  | [], _ => rfl
  | c :: cs, h => by
    rw [findUrlMatch]
    cases hm : matchAt (c :: cs) with
    | some cap => exact absurd (matchAt_dot hm) h
    | none => exact findUrlMatch_eq_none fun hc => h (List.mem_cons_of_mem _ hc)

theorem stopChar_false_of_idChar {c : Char} (h : isVideoIdChar c = true) :
    stopChar c = false := by
  rw [isVideoIdChar, decide_eq_true_eq] at h
  rw [stopChar, decide_eq_false_iff_not]
  rintro (rfl | rfl | rfl | rfl) <;> revert h <;> decide

theorem idChar_ne_dot {c : Char} (h : isVideoIdChar c = true) : c ≠ ('.') := by
  rintro rfl
  revert h
  decide

theorem ws_not_idChar {c : Char} (h : isJsWhitespace c = true) :
    isVideoIdChar c = false := by
  rw [isJsWhitespace, decide_eq_true_eq] at h
  rcases h with rfl | rfl | rfl | rfl | rfl | rfl | rfl | rfl | rfl | rfl <;> decide

theorem ws_ne_dot {c : Char} (h : isJsWhitespace c = true) : c ≠ ('.') := by
  rintro rfl
  revert h
  decide

theorem twitchMatchAt_sound {cs cap : List Char} (h : twitchMatchAt cs = some cap) :
    cap ≠ [] ∧ ∀ c ∈ cap, isWordChar c = true := by
  unfold twitchMatchAt at h
  split at h
  · simp at h
  next rest hrest =>
    split at h
    · simp at h
    next cs' hcap =>
      rw [Option.some_inj] at h
      subst h
      exact ⟨hcap, fun c hc => mem_captureWhile hc⟩

theorem twitchFind_sound :
    ∀ {cs cap : List Char}, twitchFind cs = some cap →
      cap ≠ [] ∧ ∀ c ∈ cap, isWordChar c = true
  | [], _, h => by simp [twitchFind] at h
  | c :: cs, cap, h => by
    rw [twitchFind] at h
    split at h
    next hm => exact twitchMatchAt_sound (h ▸ hm)
    next => exact twitchFind_sound h

theorem runNotify_ended : ∀ (N : Nat) (s : HomeState),
    runNotify s (List.replicate N 0) =
      ({ s with loopCount := s.loopCount + N }, (List.replicate N (loopCmds s.startTime)).flatten)
  | 0, s => by simp [runNotify, List.replicate]
  | N + 1, s => by
    rw [List.replicate_succ, runNotify]
    have ih := runNotify_ended N { s with loopCount := s.loopCount + 1 }
    simp only [onPlayerStateChange, ih, loopCmds, List.replicate_succ, List.flatten_cons]
    refine Prod.ext ?_ rfl
    simp [Nat.add_assoc, Nat.add_comm 1 N]

theorem watch_runNotify_ended : ∀ (N : Nat) (s : Watch.WatchState),
    Watch.runNotify s (List.replicate N 0) =
      ({ s with loopCount := s.loopCount + N }, (List.replicate N (loopCmds s.startTime)).flatten)
  | 0, s => by simp [Watch.runNotify, List.replicate]
  | N + 1, s => by
    rw [List.replicate_succ, Watch.runNotify]
    have ih := watch_runNotify_ended N { s with loopCount := s.loopCount + 1 }
    simp only [Watch.onPlayerStateChange, ih, loopCmds, List.replicate_succ, List.flatten_cons]
    refine Prod.ext ?_ rfl
    simp [Nat.add_assoc, Nat.add_comm 1 N]

theorem dropLit_head_ne {p c : Char} {ps cs : List Char} (h : ¬ p = c) :
    dropLit (p :: ps) (c :: cs) = none := by
  rw [dropLit, if_neg h]

theorem tryPat_none_of_dropLit {p cs : List Char} (h : dropLit p cs = none) :
    tryPat p cs = none := by
  unfold tryPat
  rw [h]

theorem matchAt_ne_y {c : Char} (cs : List Char) (h : ¬ ('y') = c) :
    matchAt (c :: cs) = none := by
  unfold matchAt
  rw [tryPat_none_of_dropLit (p := watchPat)
      (by rw [show watchPat = ('y') :: ("outube.com/watch?v=").data from rfl]
          exact dropLit_head_ne h),
    tryPat_none_of_dropLit (p := shortPat)
      (by rw [show shortPat = ('y') :: ("outu.be/").data from rfl]
          exact dropLit_head_ne h),
    tryPat_none_of_dropLit (p := embedPat)
      (by rw [show embedPat = ('y') :: ("outube.com/embed/").data from rfl]
          exact dropLit_head_ne h)]

theorem findUrlMatch_cons_none {c : Char} {cs : List Char} (h : matchAt (c :: cs) = none) :
    findUrlMatch (c :: cs) = findUrlMatch cs := by
  rw [findUrlMatch, h]

theorem findUrlMatch_shortPat (t : List Char) (h1 : t ≠ [])
    (h2 : ∀ c ∈ t, stopChar c = false) :
    findUrlMatch (("https://youtu.be/").data ++ t) = some t := by
  have hcap : captureWhile (fun c => !stopChar c) t = t :=
    captureWhile_eq_self fun c hc => by simp [h2 c hc]
  show findUrlMatch ('h' :: 't' :: 't' :: 'p' :: 's' :: ':' :: '/' :: '/' ::
    'y' :: 'o' :: 'u' :: 't' :: 'u' :: '.' :: 'b' :: 'e' :: '/' :: t) = some t
  rw [findUrlMatch_cons_none (matchAt_ne_y _ (by decide)),
    findUrlMatch_cons_none (matchAt_ne_y _ (by decide)),
    findUrlMatch_cons_none (matchAt_ne_y _ (by decide)),
    findUrlMatch_cons_none (matchAt_ne_y _ (by decide)),
    findUrlMatch_cons_none (matchAt_ne_y _ (by decide)),
    findUrlMatch_cons_none (matchAt_ne_y _ (by decide)),
    findUrlMatch_cons_none (matchAt_ne_y _ (by decide)),
    findUrlMatch_cons_none (matchAt_ne_y _ (by decide))]
  have hw : tryPat watchPat
      ('y' :: 'o' :: 'u' :: 't' :: 'u' :: '.' :: 'b' :: 'e' :: '/' :: t) = none := by
    apply tryPat_none_of_dropLit
    rw [show watchPat = ('y') :: ('o') :: ('u') :: ('t') :: ('u') :: ('b') :: ('e') ::
      (".com/watch?v=").data from rfl]
    simp [dropLit]
  have hs : tryPat shortPat
      ('y' :: 'o' :: 'u' :: 't' :: 'u' :: '.' :: 'b' :: 'e' :: '/' :: t) = some t := by
    unfold tryPat
    rw [show shortPat = ('y') :: ('o') :: ('u') :: ('t') :: ('u') :: ('.') :: ('b') ::
      ('e') :: ('/') :: ([]) from rfl]
    simp only [dropLit, reduceIte]
    rw [hcap]
    cases ht : t with
    | nil => exact absurd ht h1
    | cons a as => simp
  rw [findUrlMatch]
  unfold matchAt
  rw [hw, hs]

theorem findUrlMatch_stops_at_amp (u : List Char) :
    findUrlMatch (("https://youtu.be/dQw4w9WgXcQ&").data ++ u) =
      some (("dQw4w9WgXcQ").data) := by
  show findUrlMatch ('h' :: 't' :: 't' :: 'p' :: 's' :: ':' :: '/' :: '/' ::
    'y' :: 'o' :: 'u' :: 't' :: 'u' :: '.' :: 'b' :: 'e' :: '/' ::
    'd' :: 'Q' :: 'w' :: '4' :: 'w' :: '9' :: 'W' :: 'g' :: 'X' :: 'c' :: 'Q' :: '&' :: u) =
    some (("dQw4w9WgXcQ").data)
  rw [findUrlMatch_cons_none (matchAt_ne_y _ (by decide)),
    findUrlMatch_cons_none (matchAt_ne_y _ (by decide)),
    findUrlMatch_cons_none (matchAt_ne_y _ (by decide)),
    findUrlMatch_cons_none (matchAt_ne_y _ (by decide)),
    findUrlMatch_cons_none (matchAt_ne_y _ (by decide)),
    findUrlMatch_cons_none (matchAt_ne_y _ (by decide)),
    findUrlMatch_cons_none (matchAt_ne_y _ (by decide)),
    findUrlMatch_cons_none (matchAt_ne_y _ (by decide))]
  have hw : tryPat watchPat ('y' :: 'o' :: 'u' :: 't' :: 'u' :: '.' :: 'b' :: 'e' :: '/' ::
      'd' :: 'Q' :: 'w' :: '4' :: 'w' :: '9' :: 'W' :: 'g' :: 'X' :: 'c' :: 'Q' :: '&' :: u) =
      none := by
    apply tryPat_none_of_dropLit
    rw [show watchPat = ('y') :: ('o') :: ('u') :: ('t') :: ('u') :: ('b') :: ('e') ::
      (".com/watch?v=").data from rfl]
    simp [dropLit]
  have hs : tryPat shortPat ('y' :: 'o' :: 'u' :: 't' :: 'u' :: '.' :: 'b' :: 'e' :: '/' ::
      'd' :: 'Q' :: 'w' :: '4' :: 'w' :: '9' :: 'W' :: 'g' :: 'X' :: 'c' :: 'Q' :: '&' :: u) =
      some (("dQw4w9WgXcQ").data) := by
    unfold tryPat
    rw [show shortPat = ('y') :: ('o') :: ('u') :: ('t') :: ('u') :: ('.') :: ('b') ::
      ('e') :: ('/') :: ([]) from rfl]
    simp only [dropLit, reduceIte]
    simp [captureWhile, stopChar]
  rw [findUrlMatch]
  unfold matchAt
  rw [hw, hs]

theorem step_loopCount_mono (e : Event) (t : HomeState) (h : resetsLoop e = false) :
    t.loopCount ≤ (step e t).1.loopCount := by
  cases e with
  | notify d =>
    show t.loopCount ≤ (onPlayerStateChange d t).1.loopCount
    unfold onPlayerStateChange
    split <;> simp
  | ready p d =>
    show t.loopCount ≤ (onPlayerReady p d t).1.loopCount
    unfold onPlayerReady
    split <;> simp
  | submit a p => simp [resetsLoop] at h
  | clear p => simp [resetsLoop] at h
  | toggle p => simp [step, togglePlay]
  | back p u => simp [step, skipBack]
  | forward p u => simp [step, skipForward]
  | resetLoop => simp [resetsLoop] at h
  | speed p v => simp [step, setSpeed]
  | tick ct d => simp [step, timeTick]

/-- C1: while a video is loaded, every `Ended` (data = 0) notification
increments `loopCount` by exactly one and emits exactly one seek to the parsed
start time followed by one play command, so N `Ended` notifications from a
fresh load leave `loopCount = N`; no event other than a submit, the Clear
button or `resetLoopCount` ever lowers `loopCount`; the watch page behaves
identically. -/
theorem loopCount_counts_ended (s : HomeState) (N : Nat) (h : s.loopCount = 0) :
    (runNotify s (List.replicate N 0)).1.loopCount = N
    ∧ (runNotify s (List.replicate N 0)).2 = (List.replicate N (loopCmds s.startTime)).flatten
    ∧ (∀ (e : Event) (t : HomeState), resetsLoop e = false → t.loopCount ≤ (step e t).1.loopCount)
    ∧ ∀ (w : Watch.WatchState) (M : Nat), w.loopCount = 0 →
        (Watch.runNotify w (List.replicate M 0)).1.loopCount = M
        ∧ (Watch.runNotify w (List.replicate M 0)).2 =
            (List.replicate M (loopCmds w.startTime)).flatten := by
  refine ⟨?_, ?_, step_loopCount_mono, ?_⟩
  · rw [runNotify_ended]
    simp [h]
  · rw [runNotify_ended]
  · intro w M hw
    constructor
    · rw [watch_runNotify_ended]
      simp [hw]
    · rw [watch_runNotify_ended]

/-- A loaded home-page state used to witness C1 at concrete inputs. -/
def homeS1 : HomeState :=
  { url := (""), videoId := some ("dQw4w9WgXcQ"), loopCount := 0, isPlaying := true,
    playbackSpeed := 1, startTime := ("7"), endTime := (""), currentTime := 0, duration := 0 }

theorem loopCount_counts_ended_w :
    (runNotify homeS1 (List.replicate 3 0)).1.loopCount = 3
    ∧ (runNotify homeS1 (List.replicate 3 0)).2 = (List.replicate 3 (loopCmds ("7"))).flatten :=
  ⟨(loopCount_counts_ended homeS1 3 rfl).1, (loopCount_counts_ended homeS1 3 rfl).2.1⟩

/-- C2: the YouTube extractor is the ordered first-match-wins scan — the
four enumerated inputs evaluate as claimed, a `youtu.be/` URL whose tail has
no stop character returns the whole tail, and the capture stops at the first
`&` whatever follows it. -/
theorem extractVideoId_first_match (t u : String) (h1 : t ≠ (""))
    (h2 : ∀ c ∈ t.data, stopChar c = false) :
    extractVideoId ("https://www.youtube.com/watch?v=dQw4w9WgXcQ&t=5s") = some ("dQw4w9WgXcQ")
    ∧ extractVideoId ("https://youtu.be/dQw4w9WgXcQ") = some ("dQw4w9WgXcQ")
    ∧ extractVideoId ("dQw4w9WgXcQ") = some ("dQw4w9WgXcQ")
    ∧ extractVideoId ("not a url") = none
    ∧ extractVideoId (("https://youtu.be/") ++ t) = some t
    ∧ extractVideoId (("https://youtu.be/dQw4w9WgXcQ&") ++ u) = some ("dQw4w9WgXcQ") := by
  refine ⟨by decide, by decide, by decide, by decide, ?_, ?_⟩
  · have hne : t.data ≠ [] := by
      intro hd
      apply h1
      apply String.ext
      rw [hd]
    unfold extractVideoId
    rw [String.data_append, findUrlMatch_shortPat t.data hne h2]
  · unfold extractVideoId
    rw [String.data_append, findUrlMatch_stops_at_amp]

theorem extractVideoId_first_match_w :
    extractVideoId (("https://youtu.be/") ++ ("abc")) = some ("abc") :=
  (extractVideoId_first_match ("abc") ("x") (by decide) (by decide)).2.2.2.2.1

/-- C3: resubmitting the currently loaded id only zeroes `loopCount` and
issues one seek to the start bound and one play; no destroy, no create, and
no other state field changes. -/
theorem same_id_restart (apiReady hasPlayer : Bool) (s : HomeState) (id : String)
    (h1 : extractVideoId s.url = some id) (h2 : s.videoId = some id) :
    submitStep apiReady hasPlayer s =
      ({ s with loopCount := 0 }, [Cmd.seekTo (startSeconds s.startTime) true, Cmd.playVideo])
    ∧ Cmd.destroy ∉ (submitStep apiReady hasPlayer s).2
    ∧ ∀ v st e, Cmd.create v st e ∉ (submitStep apiReady hasPlayer s).2 := by
  have hsub : handleSubmit s =
      ({ s with loopCount := 0 }, [Cmd.seekTo (startSeconds s.startTime) true, Cmd.playVideo]) := by
    unfold handleSubmit
    rw [h1]
    exact if_pos h2.symm
  have hmain : submitStep apiReady hasPlayer s =
      ({ s with loopCount := 0 }, [Cmd.seekTo (startSeconds s.startTime) true, Cmd.playVideo]) := by
    unfold submitStep
    rw [hsub]
    simp
  refine ⟨hmain, ?_, fun v st e => ?_⟩
  · rw [hmain]
    simp
  · rw [hmain]
    simp

/-- A home-page state whose url field re-extracts to the loaded id, witnessing C3. -/
def homeS3 : HomeState :=
  { url := ("dQw4w9WgXcQ"), videoId := some ("dQw4w9WgXcQ"), loopCount := 4, isPlaying := true,
    playbackSpeed := 1, startTime := (""), endTime := (""), currentTime := 9, duration := 50 }

theorem same_id_restart_w :
    submitStep true true homeS3 =
      ({ homeS3 with loopCount := 0 }, [Cmd.seekTo (some 0) true, Cmd.playVideo]) :=
  (same_id_restart true true homeS3 ("dQw4w9WgXcQ") (by decide) (by decide)).1

/-- C4: submitting an input whose extraction fails changes nothing: the state
is returned untouched and no player command is issued. -/
theorem failed_extract_noop (apiReady hasPlayer : Bool) (s : HomeState)
    (h : extractVideoId s.url = none) :
    submitStep apiReady hasPlayer s = (s, []) := by
  have hsub : handleSubmit s = (s, []) := by
    unfold handleSubmit
    rw [h]
  unfold submitStep
  rw [hsub]
  simp

/-- A home-page state holding an unparseable input, witnessing C4. -/
def homeS4 : HomeState :=
  { url := ("not a url"), videoId := some ("dQw4w9WgXcQ"), loopCount := 2, isPlaying := true,
    playbackSpeed := 2, startTime := ("5"), endTime := ("9"), currentTime := 3, duration := 50 }

theorem failed_extract_noop_w : submitStep true true homeS4 = (homeS4, []) :=
  failed_extract_noop true true homeS4 (by decide)

/-- A home-page state with a non-default playback speed, refuting C5. -/
def homeS5 : HomeState :=
  { url := (""), videoId := some ("dQw4w9WgXcQ"), loopCount := 7, isPlaying := true,
    playbackSpeed := 2, startTime := (""), endTime := (""), currentTime := 5, duration := 10 }

theorem clear_keeps_speed_cex :
    (handleReset true homeS5).1.playbackSpeed = 2 ∧ ¬ (2 : ℚ) = 1 :=
  ⟨rfl, by norm_num⟩

/-- C5 as amended: loading a different identifier resets `loopCount` to 0 and
sets `isPlaying`, leaving speed, times and trim bounds untouched; clearing
resets every field except `playbackSpeed`, which keeps its prior value. -/
theorem load_and_clear_resets (s : HomeState) (id : String)
    (h1 : extractVideoId s.url = some id) (h2 : ¬ some id = s.videoId) :
    (handleSubmit s).1 = { s with videoId := some id, loopCount := 0, isPlaying := true }
    ∧ ∀ (hasPlayer : Bool) (t : HomeState), (handleReset hasPlayer t).1 =
        { url := (""), videoId := none, loopCount := 0, isPlaying := false,
          playbackSpeed := t.playbackSpeed, startTime := (""), endTime := (""),
          currentTime := 0, duration := 0 } := by
  constructor
  · unfold handleSubmit
    rw [h1]
    exact congrArg Prod.fst (if_neg h2)
  · intro hasPlayer t
    rfl

/-- A home-page state about to load a different id, witnessing the amended C5. -/
def homeS5b : HomeState :=
  { url := ("dQw4w9WgXcQ"), videoId := none, loopCount := 3, isPlaying := false,
    playbackSpeed := 2, startTime := ("4"), endTime := (""), currentTime := 6, duration := 20 }

theorem load_and_clear_resets_w :
    (handleSubmit homeS5b).1 =
      { homeS5b with videoId := some ("dQw4w9WgXcQ"), loopCount := 0, isPlaying := true } :=
  (load_and_clear_resets homeS5b ("dQw4w9WgXcQ") (by decide) (by decide)).1

theorem bare_id_not_trimmed_cex :
    extractVideoId (" dQw4w9WgXcQ ") = none := by decide

/-- C6 as amended: when the URL pattern fails, the whole untrimmed input must
be exactly 11 id characters to be accepted (so surrounding whitespace causes
rejection, as the counterexample shows), and any all-whitespace or empty
input yields `none`. -/
theorem bare_id_exact (s : String) :
    ((s.data.length = 11 ∧ ∀ c ∈ s.data, isVideoIdChar c = true) → extractVideoId s = some s)
    ∧ ((∀ c ∈ s.data, isJsWhitespace c = true) → extractVideoId s = none) := by
  constructor
  · rintro ⟨hlen, hall⟩
    have hdot : ('.') ∉ s.data := fun hm => idChar_ne_dot (hall _ hm) rfl
    unfold extractVideoId
    rw [findUrlMatch_eq_none hdot]
    exact if_pos ⟨hlen, hall⟩
  · intro hws
    have hdot : ('.') ∉ s.data := fun hm => ws_ne_dot (hws _ hm) rfl
    unfold extractVideoId
    rw [findUrlMatch_eq_none hdot]
    apply if_neg
    rintro ⟨hlen, hall⟩
    cases hd : s.data with
    | nil =>
      rw [hd] at hlen
      simp at hlen
    | cons a as =>
      have ha1 := hws a (by rw [hd]; exact List.mem_cons_self a as)
      have ha2 := hall a (by rw [hd]; exact List.mem_cons_self a as)
      rw [ws_not_idChar ha1] at ha2
      exact Bool.false_ne_true ha2

theorem bare_id_exact_w :
    extractVideoId ("dQw4w9WgXcQ") = some ("dQw4w9WgXcQ") ∧ extractVideoId ("   ") = none :=
  ⟨(bare_id_exact ("dQw4w9WgXcQ")).1 (by decide), (bare_id_exact ("   ")).2 (by decide)⟩

/-- C7: the Twitch extractor always returns a string — the claimed examples
evaluate as stated (including a case-insensitive URL), and for every input it
returns either the word-character capture after `twitch.tv/` or the trimmed
input verbatim. -/
theorem extractChannelName_total (s : String) :
    extractChannelName ("https://twitch.tv/Caedrel") = ("Caedrel")
    ∧ extractChannelName ("  caedrel  ") = ("caedrel")
    ∧ extractChannelName ("HTTPS://TWITCH.TV/Caedrel") = ("Caedrel")
    ∧ (twitchFind s.data = none → extractChannelName s = jsTrim s)
    ∧ ∀ cap, twitchFind s.data = some cap →
        extractChannelName s = String.mk cap ∧ cap ≠ [] ∧ ∀ c ∈ cap, isWordChar c = true := by
  refine ⟨by decide, by decide, by decide, ?_, ?_⟩
  · intro h
    unfold extractChannelName
    rw [h]
  · intro cap h
    refine ⟨?_, twitchFind_sound h⟩
    unfold extractChannelName
    rw [h]

theorem extractChannelName_total_w :
    extractChannelName ("hello world") = jsTrim ("hello world")
    ∧ extractChannelName ("twitch.tv/pokimane") = String.mk (("pokimane").data) :=
  ⟨(extractChannelName_total ("hello world")).2.2.2.1 (by decide),
   ((extractChannelName_total ("twitch.tv/pokimane")).2.2.2.2 (("pokimane").data)
     (by decide)).1⟩

/-- C8: skipping back seeks to `max 0 (current - 10)` — zero when the current
time is 3 — and skipping forward seeks to `current + 10` with no upper clamp;
the watch page handlers coincide. -/
theorem skip_clamped (s : HomeState) (w : Watch.WatchState) (t : Int) :
    skipBack true t s = (s, [Cmd.seekTo (some (max 0 (t - 10))) true])
    ∧ (0 : Int) ≤ max 0 (t - 10)
    ∧ skipBack true 3 s = (s, [Cmd.seekTo (some 0) true])
    ∧ skipForward true t s = (s, [Cmd.seekTo (some (t + 10)) true])
    ∧ Watch.skipBack true t w = (w, [Cmd.seekTo (some (max 0 (t - 10))) true])
    ∧ Watch.skipForward true t w = (w, [Cmd.seekTo (some (t + 10)) true]) := by
  refine ⟨rfl, le_max_left 0 (t - 10), ?_, rfl, rfl, rfl⟩
  have hm : max (0 : Int) (3 - 10) = 0 := by decide
  simp [skipBack, hm]

theorem identifier_grammar_cex :
    extractVideoId ("https://youtu.be/x!") = some ("x!")
    ∧ ¬ ("x!").length = 11
    ∧ extractChannelName ("  ") = ("") := by decide

/-- C9 as amended: a successful YouTube extraction is non-empty and free of
`&`, newline, `?`, `#` (the full 11-character grammar holds only for the bare
pattern, cf. C6), and a Twitch URL capture is a non-empty word-character run;
the trimmed-input fallback of `extractChannelName` carries no grammar
guarantee, as the counterexample shows. -/
theorem identifier_grammar_amended (s v : String) :
    (extractVideoId s = some v → v ≠ ("") ∧ ∀ c ∈ v.data, stopChar c = false)
    ∧ ∀ cap, twitchFind s.data = some cap → cap ≠ [] ∧ ∀ c ∈ cap, isWordChar c = true := by
  constructor
  · intro h
    unfold extractVideoId at h
    split at h
    next cap hfind =>
      rw [Option.some_inj] at h
      subst h
      obtain ⟨hne, hstop⟩ := findUrlMatch_sound hfind
      constructor
      · intro he
        exact hne (congrArg String.data he)
      · exact fun c hc => hstop c hc
    next hfind =>
      split at h
      next hcond =>
        rw [Option.some_inj] at h
        subst h
        obtain ⟨hlen, hall⟩ := hcond
        constructor
        · intro he
          rw [he] at hlen
          exact absurd hlen (by decide)
        · exact fun c hc => stopChar_false_of_idChar (hall c hc)
      next => simp at h
  · exact fun cap h => twitchFind_sound h

theorem identifier_grammar_amended_w :
    (("abc") : String) ≠ ("") ∧ ∀ c ∈ (("abc") : String).data, stopChar c = false :=
  (identifier_grammar_amended ("https://youtu.be/abc") ("abc")).1 (by decide)

/-- C10: for non-negative seconds the rendered time is the unpadded floor of
`s / 60` (no hour rollover), a colon, and the two-digit zero-padded floor of
`s mod 60`; `3661` renders as `61:01`; the two pages' `formatTime` agree on
every input. -/
theorem formatTime_spec (s : ℚ) (hs : 0 ≤ s) :
    formatTime s = formatTimeSpec s
    ∧ formatTime (3661 : ℚ) = ("61:01")
    ∧ ∀ q : ℚ, formatTime q = Watch.formatTime q := by
  refine ⟨?_, ?_, fun q => rfl⟩
  · have hq : (0 : ℚ) ≤ s / 60 := by positivity
    have htr : jsTrunc (s / 60) = ⌊s / 60⌋ := if_neg (not_lt.2 hq)
    have hfl := Int.floor_le (s / 60)
    have hceil := Int.lt_floor_add_one (s / 60)
    have h60 : (60 : ℚ) * (s / 60) = s := by
      rw [mul_comm]
      exact div_mul_cancel₀ s (by norm_num)
    have hr0 : 0 ≤ ⌊s - 60 * ((⌊s / 60⌋ : Int) : ℚ)⌋ := by
      apply Int.le_floor.2
      push_cast
      linarith
    have hr60 : ⌊s - 60 * ((⌊s / 60⌋ : Int) : ℚ)⌋ < 60 := by
      apply Int.floor_lt.2
      push_cast
      linarith
    simp only [formatTime, formatTimeSpec, jsMod, htr]
    congr 1
    generalize (⌊s - 60 * ((⌊s / 60⌋ : Int) : ℚ)⌋ : Int) = r at hr0 hr60
    interval_cases r <;> decide
  · have h1 : (⌊(3661 : ℚ) / 60⌋ : Int) = 61 := by
      rw [show ((3661 : ℚ)) = (((3661 : Int) : ℚ)) by norm_num,
        show ((60 : ℚ)) = (((60 : Nat) : ℚ)) by norm_num,
        Rat.floor_intCast_div_natCast]
      decide
    have h2 : jsMod (3661 : ℚ) 60 = 1 := by
      unfold jsMod jsTrunc
      rw [if_neg (by norm_num : ¬ ((3661 : ℚ) / 60 < 0)), h1]
      norm_num
    simp only [formatTime, h1, h2, Int.floor_one]
    decide

theorem formatTime_spec_w : formatTime (61 : ℚ) = formatTimeSpec (61 : ℚ) :=
  (formatTime_spec 61 (by norm_num)).1

